import Mathlib

/-!
Shallow embedding of the synchronization engine of the tasks repository
(local-first task app syncing a Dexie store against a REST sync service).

Embedded modules:
  - src/lib/types.ts        : Syncable record and entity sync status
  - src/sync/hooks.ts       : change-tracker Dexie hooks (creating / updating)
  - src/lib/syncConfig.ts   : sync configuration (tables, type mapping)
  - src/sync/api.ts         : wire types and the transport client's request
                              classification and query-string building
  - src/sync/retryQueue.ts  : retry backoff state machine
  - src/sync/operationLog.ts: crash-recovery operation journal
  - src/sync/engine.ts      : SyncEngine (syncNow / forceFullSync dedup prefix,
                              pushChanges, pullChanges, failure classification)

Conventions of the embedding: timestamps (JS Date values) are Nat milliseconds;
the current clock value is passed explicitly as a parameter named now.
Application-level entity fields (the output of the application-supplied
serialize / deserialize functions) are abstracted as a single opaque String
field named data; serialize and deserialize are passed as function parameters,
matching SyncEngineConfig which receives them from the application.
Asynchronous methods are modelled by their sequential effect on explicit
state, with the network response supplied as an argument; JS truthiness tests
on nullable strings are modelled as "some s with s not empty".
-/

/-- Entity sync status, from src/lib/types.ts (type SyncStatus). -/
inductive SyncStatus
  | synced
  | pending
  | conflict
deriving DecidableEq, Repr

/-- Syncable record stored in a Dexie table, from src/lib/types.ts
(interface Syncable). The application payload fields are abstracted into
the single opaque field data. -/
structure Entity where
  id : String
  data : String
  _syncStatus : SyncStatus
  _localUpdatedAt : Nat
  deletedAt : Option Nat
deriving DecidableEq, Repr

/-- Association-list lookup, modelling keyed access (Dexie Table.get on a
primary key, and plain object indexing on string keys). -/
def assocGet {A : Type} (l : List (String × A)) (k : String) : Option A :=
  (l.find? (fun p => p.1 = k)).map (fun p => p.2)

/-- Association-list insert-or-replace, modelling Dexie Table.put keyed by
primary key. -/
def assocPut {A : Type} (l : List (String × A)) (k : String) (v : A) :
    List (String × A) :=
  if l.any (fun p => p.1 = k) then
    l.map (fun p => if p.1 = k then (k, v) else p)
  else
    l ++ [(k, v)]

/-- Association-list delete, modelling Dexie Table.delete on a key. -/
def assocDelete {A : Type} (l : List (String × A)) (k : String) :
    List (String × A) :=
  l.filter (fun p => p.1 ≠ k)

/-- Point read of an entity table by primary key id (Dexie Table.get). -/
def tableGet (rows : List Entity) (id : String) : Option Entity :=
  rows.find? (fun e => e.id = id)

/-- Partial modification object passed to a Dexie update / modify call on an
entity table. A field set to none is absent from the modification. The
deletedAt component is doubly optional: the outer Option is presence in the
modification, the inner one is the nullable stored value. -/
structure Modifications where
  _syncStatus : Option SyncStatus := none
  _localUpdatedAt : Option Nat := none
  data : Option String := none
  deletedAt : Option (Option Nat) := none
deriving DecidableEq, Repr

/-- Apply a modification object to a stored entity (fields present in the
modification overwrite the stored fields; the primary key is never part of
a modification). -/
def applyMods (e : Entity) (m : Modifications) : Entity :=
  { e with
    _syncStatus := m._syncStatus.getD e._syncStatus
    _localUpdatedAt := m._localUpdatedAt.getD e._localUpdatedAt
    data := m.data.getD e.data
    deletedAt := m.deletedAt.getD e.deletedAt }

/-- Change-tracker updating hook, from src/sync/hooks.ts (initSyncHooks,
table.hook updating): a sync-initiated update (one that explicitly sets
_syncStatus to synced) is left alone; any other update is forced to carry
_syncStatus (the explicitly given one, defaulting to pending) and a
refreshed _localUpdatedAt. The returned extra keys are merged into the
modification set, as Dexie merges the hook's return value. -/
def updatingHook (now : Nat) (mods : Modifications) : Modifications :=
  if mods._syncStatus = some SyncStatus.synced then
    mods
  else
    { mods with
      _syncStatus := some (mods._syncStatus.getD SyncStatus.pending)
      _localUpdatedAt := some now }

/-- Record about to be inserted, before the creating hook runs: the sync
bookkeeping fields may be absent (none). From src/sync/hooks.ts. -/
structure NewEntity where
  id : String
  data : String
  _syncStatus : Option SyncStatus
  _localUpdatedAt : Option Nat
  deletedAt : Option Nat
deriving DecidableEq, Repr

/-- Change-tracker creating hook, from src/sync/hooks.ts (initSyncHooks,
table.hook creating): absent sync fields are initialized to pending and the
current time; present ones are kept. -/
def creatingHook (now : Nat) (obj : NewEntity) : NewEntity :=
  let obj1 :=
    if obj._syncStatus = none then
      { obj with _syncStatus := some SyncStatus.pending }
    else obj
  if obj1._localUpdatedAt = none then
    { obj1 with _localUpdatedAt := some now }
  else obj1

/-- Finalize an inserted record into a stored entity (after the creating
hook; defaults pending / now mirror the hook's own defaults and are only
reached if the hook left a field absent, which it never does). -/
def NewEntity.store (now : Nat) (obj : NewEntity) : Entity :=
  { id := obj.id
    data := obj.data
    _syncStatus := obj._syncStatus.getD SyncStatus.pending
    _localUpdatedAt := obj._localUpdatedAt.getD now
    deletedAt := obj.deletedAt }

/-- Dexie Table.update on one primary key, with the change-tracker updating
hook installed: the row under that key (if any) receives the hook-adjusted
modification set; all other rows are untouched. -/
def tableUpdate (now : Nat) (rows : List Entity) (id : String)
    (mods : Modifications) : List Entity :=
  rows.map (fun e => if e.id = id then applyMods e (updatingHook now mods) else e)

/-- Dexie Collection.modify over the rows whose id lies in ids (used by
pushChanges via where id anyOf), with the updating hook installed. -/
def tableModifyWhereIdIn (now : Nat) (rows : List Entity) (ids : List String)
    (mods : Modifications) : List Entity :=
  rows.map (fun e =>
    if ids.contains e.id then applyMods e (updatingHook now mods) else e)

/-- Dexie Table.put of a fresh record (no row with that key exists), with the
creating hook installed: the hook runs on the object, then it is appended. -/
def tablePutNew (now : Nat) (rows : List Entity) (obj : NewEntity) :
    List Entity :=
  rows ++ [NewEntity.store now (creatingHook now obj)]

/-- Sync configuration, from src/lib/syncConfig.ts (const syncConfig). -/
structure SyncConfigData where
  appId : String
  tables : List String
  tableToSyncType : List (String × String)
  defaultSyncUrl : String
  syncIntervalMs : Nat

/-- Concrete configuration of this app: the single Dexie table tasks, mapped
to the sync API type tasks. -/
def syncConfig : SyncConfigData :=
  { appId := "tasks"
    tables := ["tasks"]
    tableToSyncType := [("tasks", "tasks")]
    defaultSyncUrl := "https://sync.thatsit.app"
    syncIntervalMs := 30000 }

/-- Sync API type name of a table, from src/lib/syncConfig.ts (getSyncType):
the configured mapping, falling back to the table name itself when the entry
is missing or falsy. -/
def getSyncType (tableName : String) : String :=
  match assocGet syncConfig.tableToSyncType tableName with
  | some s => if s = "" then tableName else s
  | none => tableName

/-- Payload of an upsert change sent to the server, from src/sync/api.ts
(interface EntityChangeData): the entity id, its serialized application
fields (abstracted as one String), and its updatedAt stamp. -/
structure EntityChangeData where
  id : String
  payload : String
  updatedAt : Nat
deriving DecidableEq, Repr

/-- Outgoing change (wire unit of a push), from src/sync/api.ts
(type EntityChange): tagged union of upsert and delete. -/
inductive EntityChange
  | upsert (type : String) (data : EntityChangeData)
  | del (type : String) (id : String) (deletedAt : Nat)
deriving DecidableEq, Repr

/-- Type tag of an outgoing change. -/
def EntityChange.ctype : EntityChange → String
  | .upsert t _ => t
  | .del t _ _ => t

/-- Entity id addressed by an outgoing change, matching the source expression
c.operation equals delete then c.id else c.data.id. -/
def EntityChange.changeId : EntityChange → String
  | .upsert _ d => d.id
  | .del _ id _ => id

/-- Conflict report returned by the push endpoint, from src/sync/api.ts
(interface ConflictInfo). The serverVersion record is abstracted as an
opaque String. -/
structure ConflictInfo where
  id : String
  serverVersion : String
  resolution : String
deriving DecidableEq, Repr

/-- Push endpoint response, from src/sync/api.ts (interface
BatchPushResponse). -/
structure BatchPushResponse where
  applied : List String
  conflicts : List ConflictInfo
  syncToken : String
deriving DecidableEq, Repr

/-- Wire operation tag of a pulled change record. -/
inductive ChangeOp
  | upsert
  | del
deriving DecidableEq, Repr

/-- Pulled change record, from src/sync/api.ts (interface
EntityChangeResponse): data is null for deletes, and for upserts carries the
payload together with its own updatedAt (which is what pullChanges reads). -/
structure EntityChangeResponse where
  id : String
  operation : ChangeOp
  data : Option EntityChangeData
  updatedAt : Nat
  deletedAt : Option Nat
deriving DecidableEq, Repr

/-- Pull endpoint response, from src/sync/api.ts (interface ChangesResponse):
changes grouped by sync type name, plus a nullable sync token. -/
structure ChangesResponse where
  changes : List (String × List EntityChangeResponse)
  syncToken : Option String
deriving DecidableEq, Repr

/-- Local database visible to the engine: the configured entity tables keyed
by table name, and the syncMeta key-value table (src/lib/db.ts stores
SyncMeta rows keyed by key, with a string value). -/
structure Db where
  tables : List (String × List Entity)
  syncMeta : List (String × String)
deriving DecidableEq, Repr

/-- Rows of a named table (absent table reads as empty). -/
def dbTable (db : Db) (name : String) : List Entity :=
  (assocGet db.tables name).getD []

/-- Replace the rows of a named table. -/
def dbSetTable (db : Db) (name : String) (rows : List Entity) : Db :=
  { db with tables := assocPut db.tables name rows }

/-- Persisted sync cursor: the value stored in syncMeta under the key
lastSyncToken, read the way pullChanges reads it. -/
def lastSyncToken (db : Db) : Option String :=
  assocGet db.syncMeta "lastSyncToken"

/-- Application-supplied serializer, as received through SyncEngineConfig:
from table name and entity to the serialized payload. -/
def Serializer : Type := String → Entity → String

/-- Application-supplied deserializer, as received through SyncEngineConfig:
from table name, wire payload and the existing local entity (if any) to the
new application fields. -/
def Deserializer : Type := String → String → Option Entity → String

/-- Gather the outgoing batch of pushChanges (src/sync/engine.ts, pushChanges
lines scanning every configured table for rows with _syncStatus pending):
a soft-deleted pending row becomes a delete change, any other pending row an
upsert change carrying serialize(tableName, entity) and the row's
_localUpdatedAt as updatedAt. -/
def gatherChanges (sera : Serializer) (db : Db) : List EntityChange :=
  syncConfig.tables.foldl
    (fun acc tableName =>
      let syncType := getSyncType tableName
      let pendingEntities :=
        (dbTable db tableName).filter (fun e => e._syncStatus = SyncStatus.pending)
      acc ++ pendingEntities.map (fun e =>
        match e.deletedAt with
        | some d => EntityChange.del syncType e.id d
        | none =>
            EntityChange.upsert syncType
              { id := e.id, payload := sera tableName e
                updatedAt := e._localUpdatedAt }))
    []

/-- Mark applied entities as synced (src/sync/engine.ts, pushChanges): per
configured table, the applied ids are filtered down to ids actually present
in this batch under that table's sync type, and those rows are modified with
_syncStatus synced (through the updating hook, which passes a synced update
through unchanged). -/
def markApplied (now : Nat) (changes : List EntityChange)
    (applied : List String) (db : Db) : Db :=
  syncConfig.tables.foldl
    (fun acc tableName =>
      let syncType := getSyncType tableName
      let appliedIds := applied.filter (fun id =>
        changes.any (fun c => c.ctype = syncType && c.changeId = id))
      dbSetTable acc tableName
        (tableModifyWhereIdIn now (dbTable acc tableName) appliedIds
          { _syncStatus := some SyncStatus.synced }))
    db

/-- Body of the conflict loop of pushChanges (src/sync/engine.ts): for one
reported conflict, the first configured table containing the id gets a
table.update setting _syncStatus conflict (the inner for-of over tables with
break); that update passes through the change-tracker updating hook. -/
def applyConflict (now : Nat) (acc : Db) (conflict : ConflictInfo) : Db :=
  match syncConfig.tables.find?
      (fun tableName => (tableGet (dbTable acc tableName) conflict.id).isSome) with
  | some tableName =>
      dbSetTable acc tableName
        (tableUpdate now (dbTable acc tableName) conflict.id
          { _syncStatus := some SyncStatus.conflict })
  | none => acc

/-- Mark conflicting entities (src/sync/engine.ts, pushChanges): the
conflict loop over the response's conflicts list. -/
def markConflicts (now : Nat) (conflicts : List ConflictInfo) (db : Db) : Db :=
  conflicts.foldl (applyConflict now) db

/-- Result of one pushChanges run: the database afterwards, the reported
counts, and how many network push requests were issued (0 when there was
nothing pending, 1 otherwise). -/
structure PushOutcome where
  db : Db
  pushed : Nat
  conflicts : List ConflictInfo
  requests : Nat
deriving Repr

/-- Push local pending changes (src/sync/engine.ts, pushChanges), with the
server's response to the single batch request supplied as an argument. With
an empty batch no request is made and nothing changes; otherwise applied ids
are marked synced, conflict ids marked conflict, and — per the NOTE in the
source — the sync token is deliberately not updated here. The operation
journal entry written around the request lives in its own storage slot and
is modelled with OperationLog below. -/
def pushChanges (sera : Serializer) (now : Nat) (db : Db)
    (resp : BatchPushResponse) : PushOutcome :=
  let changes := gatherChanges sera db
  if changes.isEmpty then
    { db := db, pushed := 0, conflicts := [], requests := 0 }
  else
    let db1 := markApplied now changes resp.applied db
    let db2 := markConflicts now resp.conflicts db1
    { db := db2
      pushed := resp.applied.length
      conflicts := resp.conflicts
      requests := 1 }

/-- Apply one pulled change record to a table (src/sync/engine.ts,
pullChanges inner loop). A delete with an existing local copy soft-deletes
it (remote deletedAt, falling back to now) and marks it synced; a delete
with no local copy is ignored. An upsert with a locally pending copy is
skipped entirely; otherwise the deserialized fields are applied with
_syncStatus synced and _localUpdatedAt set to the remote updatedAt, via
update when a copy exists and put when none does. The second component
counts how much the pulled counter advanced. -/
def applyPullChange (dsl : Deserializer) (now : Nat) (tableName : String)
    (acc : List Entity × Nat) (change : EntityChangeResponse) :
    List Entity × Nat :=
  let rows := acc.1
  match change.operation with
  | ChangeOp.del =>
      match tableGet rows change.id with
      | some _ =>
          (tableUpdate now rows change.id
            { deletedAt := some (some (change.deletedAt.getD now))
              _syncStatus := some SyncStatus.synced }, acc.2 + 1)
      | none => acc
  | ChangeOp.upsert =>
      match change.data with
      | none => acc
      | some d =>
          match tableGet rows change.id with
          | some existing =>
              if existing._syncStatus = SyncStatus.pending then
                acc
              else
                (tableUpdate now rows change.id
                  { data := some (dsl tableName d.payload (some existing))
                    _syncStatus := some SyncStatus.synced
                    _localUpdatedAt := some d.updatedAt }, acc.2 + 1)
          | none =>
              (tablePutNew now rows
                { id := change.id
                  data := dsl tableName d.payload none
                  _syncStatus := some SyncStatus.synced
                  _localUpdatedAt := some d.updatedAt
                  deletedAt := none }, acc.2 + 1)

/-- Apply the pulled change list of one table in order. -/
def applyPullChanges (dsl : Deserializer) (now : Nat) (tableName : String)
    (rows : List Entity) (tableChanges : List EntityChangeResponse) :
    List Entity × Nat :=
  tableChanges.foldl (applyPullChange dsl now tableName) (rows, 0)

/-- Pull remote changes (src/sync/engine.ts, pullChanges), with the server's
response supplied as an argument. Each configured table receives the change
list stored in the response under its sync type (missing means empty); after
all tables are processed the sync token is persisted, but only when the
response carries a truthy one (non-null and non-empty) — otherwise the
stored cursor is left as it was. Returns the database and the pulled
count. -/
def pullChanges (dsl : Deserializer) (now : Nat) (db : Db)
    (resp : ChangesResponse) : Db × Nat :=
  let applied :=
    syncConfig.tables.foldl
      (fun (acc : Db × Nat) tableName =>
        let syncType := getSyncType tableName
        let tableChanges := (assocGet resp.changes syncType).getD []
        let step :=
          applyPullChanges dsl now tableName (dbTable acc.1 tableName) tableChanges
        (dbSetTable acc.1 tableName step.1, acc.2 + step.2))
      (db, 0)
  let db2 :=
    match resp.syncToken with
    | some t =>
        if t = "" then applied.1
        else { applied.1 with syncMeta := assocPut applied.1.syncMeta "lastSyncToken" t }
    | none => applied.1
  (db2, applied.2)

/-- Query parameters built by SyncApiClient.getChanges (src/sync/api.ts):
types always, since and clientId only when truthy (non-null, non-empty, as
URLSearchParams.set is guarded by plain truthiness tests). -/
def getChangesParams (types : List String) (since : Option String)
    (clientId : Option String) : List (String × String) :=
  let params := [("types", String.intercalate "," types)]
  let params :=
    match since with
    | some s => if s = "" then params else params ++ [("since", s)]
    | none => params
  match clientId with
  | some c => if c = "" then params else params ++ [("clientId", c)]
  | none => params

/-- Error classification of one transport request (src/sync/api.ts,
SyncApiClient.request): a missing bearer token fails before any fetch with
Not authenticated; a non-ok response with HTTP status 401 fails with
Authentication expired; any other non-ok response fails with a generic API
error message; an ok response succeeds. The response.ok flag is the fetch
semantics status in 200..299. -/
def apiRequest (token : Option String) (status : Nat) : Except String Unit :=
  match token with
  | none => Except.error "Not authenticated"
  | some _ =>
      if !(200 ≤ status && status < 300) then
        if status = 401 then
          Except.error "Authentication expired"
        else
          Except.error ("API error: " ++ toString status)
      else
        Except.ok ()

/-- Engine-level sync status, from src/sync/engine.ts (type SyncStatus of the
engine module; named apart from the entity-level SyncStatus, which shadows
it in the source through separate modules). -/
inductive EngineStatus
  | idle
  | syncing
  | offline
  | error
deriving DecidableEq, Repr

/-- Failure classification in performSync's catch block (src/sync/engine.ts,
performSync): the two authentication error messages set status error and
notify the auth-error callbacks; any other failure sets offline when
navigator.onLine is false and error otherwise, and never notifies the
auth-error callbacks. Returns the status set and whether the auth-error
event fired. -/
def handleSyncError (message : String) (online : Bool) : EngineStatus × Bool :=
  if message = "Not authenticated" || message = "Authentication expired" then
    (EngineStatus.error, true)
  else if !online then
    (EngineStatus.offline, false)
  else
    (EngineStatus.error, false)

/-- Persisted retry backoff state, from src/sync/retryQueue.ts (interface
RetryState). -/
structure RetryState where
  attemptCount : Nat
  lastAttempt : Nat
  nextAttempt : Nat
deriving DecidableEq, Repr

/-- Backoff delays in milliseconds, from src/sync/retryQueue.ts (BACKOFF_MS):
1s, 5s, 15s, 1m, 5m. -/
def BACKOFF_MS : List Nat := [1000, 5000, 15000, 60000, 300000]

/-- Maximum retry attempts, from src/sync/retryQueue.ts (MAX_RETRIES). -/
def MAX_RETRIES : Nat := 5

/-- In-memory state of the RetryQueue: the persisted RetryState (null when no
failure is outstanding) and the armed retry timer, recorded with the delay it
was armed with (none when no timer is armed). -/
structure RetryQueueState where
  state : Option RetryState
  timer : Option Nat
deriving DecidableEq, Repr

/-- Arm the retry timer (src/sync/retryQueue.ts, scheduleRetry): nothing
happens when there is no state, when a timer is already armed, or when the
attempt count has reached MAX_RETRIES; otherwise a timer is armed for
nextAttempt minus now, clamped to at least 0 (Nat subtraction). -/
def scheduleRetry (now : Nat) (q : RetryQueueState) : RetryQueueState :=
  match q.state, q.timer with
  | some st, none =>
      if st.attemptCount ≥ MAX_RETRIES then q
      else { q with timer := some (st.nextAttempt - now) }
  | _, _ => q

/-- Record a sync failure (src/sync/retryQueue.ts, recordFailure): the
attempt number is the stored count plus one (one for the first failure);
past MAX_RETRIES the failure is only logged and the state is untouched;
otherwise the state is replaced with the new count and a nextAttempt of now
plus the backoff delay indexed by the capped attempt number, and a retry is
scheduled. -/
def recordFailure (now : Nat) (q : RetryQueueState) : RetryQueueState :=
  let attempt :=
    match q.state with
    | some st => st.attemptCount + 1
    | none => 1
  if attempt > MAX_RETRIES then
    q
  else
    let backoff := BACKOFF_MS.getD (min (attempt - 1) (BACKOFF_MS.length - 1)) 0
    let q1 : RetryQueueState :=
      { state := some
          { attemptCount := attempt, lastAttempt := now, nextAttempt := now + backoff }
        timer := q.timer }
    scheduleRetry now q1

/-- Record a successful sync (src/sync/retryQueue.ts, recordSuccess): the
state is cleared and any armed timer cancelled. -/
def recordSuccess (_q : RetryQueueState) : RetryQueueState :=
  { state := none, timer := none }

/-- Firing of the armed retry timer: the timer slot is cleared before the
retry callback (the orchestrator's syncNow) runs; a failure of that sync
then comes back through recordFailure. -/
def fireTimer (q : RetryQueueState) : RetryQueueState :=
  { q with timer := none }

/-- Retry queue state after n consecutive sync failures starting from a clean
queue at time t0: before each failure after the first, the previously armed
timer has fired (that is what triggered the failing retry). -/
def consecutiveFailures (t0 : Nat) : Nat → RetryQueueState
  | 0 => { state := none, timer := none }
  | n + 1 => recordFailure t0 (fireTimer (consecutiveFailures t0 n))

/-- Journalled in-flight operation, from src/sync/operationLog.ts (interface
Operation). -/
structure Operation where
  id : String
  type : String
  startedAt : Nat
  entityIds : List String
deriving DecidableEq, Repr

/-- Observable effects of constructing the OperationLog
(src/sync/operationLog.ts, constructor via checkForOrphanedOperation): the
journal storage slot afterwards, how many warnings were logged, how many
network push requests were issued, and which entity ids were written to the
store. The construction code path contains no api call and no table write,
so the two last fields are 0 and empty by construction of the model. -/
structure OperationLogConstructEffects where
  journal : Option Operation
  warnings : Nat
  pushRequests : Nat
  entityIdsWritten : List String
deriving DecidableEq, Repr

/-- Construct the OperationLog with the given journal storage slot contents
(src/sync/operationLog.ts, checkForOrphanedOperation, on a well-formed
stored entry): a present stale entry is logged as a warning and removed; an
absent entry changes nothing. No push is sent and no entity is touched. -/
def operationLogConstruct (stored : Option Operation) :
    OperationLogConstructEffects :=
  match stored with
  | some _ =>
      { journal := none, warnings := 1, pushRequests := 0, entityIdsWritten := [] }
  | none =>
      { journal := none, warnings := 0, pushRequests := 0, entityIdsWritten := [] }

/-- Engine state relevant to the claims, from src/sync/engine.ts (class
SyncEngine): whether init supplied an api client, whether configure supplied
a config, the engine status, the memoized in-flight sync promise (by id),
a counter allocating promise ids, and how many performSync runs have been
started (each started run is exactly one push-then-pull cycle). -/
structure EngineState where
  apiSet : Bool
  configSet : Bool
  status : EngineStatus
  currentSyncPromise : Option Nat
  nextPromise : Nat
  performSyncStarts : Nat
deriving DecidableEq, Repr

/-- Outcome of the synchronous prefix of syncNow (up to the point where it
first suspends): a synchronously thrown error, the zero result returned when
offline, joining the already in-flight sync promise, or the start of a new
performSync run memoized under a fresh promise id. -/
inductive SyncCallOutcome
  | threw (message : String)
  | offlineResult
  | joined (promise : Nat)
  | started (promise : Nat)
deriving DecidableEq, Repr

/-- Synchronous prefix of syncNow (src/sync/engine.ts, syncNow): throws
SyncEngine not initialized without an api client, then SyncEngine not
configured without a config; returns the memoized in-flight promise when one
exists; sets status offline and returns a zero result when navigator.onLine
is false; otherwise sets status syncing, starts performSync and memoizes its
promise. A thrown or joined call leaves the state untouched. -/
def syncNowStep (online : Bool) (s : EngineState) :
    SyncCallOutcome × EngineState :=
  if !s.apiSet then
    (SyncCallOutcome.threw "SyncEngine not initialized", s)
  else if !s.configSet then
    (SyncCallOutcome.threw "SyncEngine not configured", s)
  else
    match s.currentSyncPromise with
    | some p => (SyncCallOutcome.joined p, s)
    | none =>
        if !online then
          (SyncCallOutcome.offlineResult, { s with status := EngineStatus.offline })
        else
          (SyncCallOutcome.started s.nextPromise,
            { s with
              status := EngineStatus.syncing
              currentSyncPromise := some s.nextPromise
              nextPromise := s.nextPromise + 1
              performSyncStarts := s.performSyncStarts + 1 })

/-- Behaviour of forceFullSync after its await of any in-flight sync has
resumed (src/sync/engine.ts, forceFullSync): throws SyncEngine not
configured without a config (initialization is not checked here); when
navigator.onLine is false it sets status offline and returns a zero result
without touching the database; otherwise it deletes the persisted
lastSyncToken row from syncMeta, sets status syncing and starts a memoized
performSync run. -/
def forceFullSyncStep (online : Bool) (s : EngineState) (db : Db) :
    SyncCallOutcome × EngineState × Db :=
  if !s.configSet then
    (SyncCallOutcome.threw "SyncEngine not configured", s, db)
  else if !online then
    (SyncCallOutcome.offlineResult, { s with status := EngineStatus.offline }, db)
  else
    ((SyncCallOutcome.started s.nextPromise),
      { s with
        status := EngineStatus.syncing
        currentSyncPromise := some s.nextPromise
        nextPromise := s.nextPromise + 1
        performSyncStarts := s.performSyncStarts + 1 },
      { db with syncMeta := assocDelete db.syncMeta "lastSyncToken" })

/-- Result structure of a sync, from src/sync/engine.ts (interface
SyncResult). -/
structure SyncResult where
  pushed : Nat
  pulled : Nat
  conflicts : List ConflictInfo
deriving Repr

/-- One successful performSync cycle (src/sync/engine.ts, performSync):
pushChanges with its response, then pullChanges with its response, counting
the network requests each phase issued (pull always issues exactly one
getChanges request; push issues one pushChanges request unless the batch was
empty). -/
structure SyncCycle where
  db : Db
  result : SyncResult
  pushRequests : Nat
  pullRequests : Nat
deriving Repr

/-- Run one successful push-then-pull cycle with the two responses given. -/
def performSyncCycle (sera : Serializer) (dsl : Deserializer) (now : Nat)
    (db : Db) (pushResp : BatchPushResponse) (pullResp : ChangesResponse) :
    SyncCycle :=
  let p := pushChanges sera now db pushResp
  let pulled := pullChanges dsl now p.db pullResp
  { db := pulled.1
    result := { pushed := p.pushed, pulled := pulled.2, conflicts := p.conflicts }
    pushRequests := p.requests
    pullRequests := 1 }

/-! Helper lemmas about the storage primitives. -/

theorem assocGet_assocPut_self {A : Type} (l : List (String × A)) (k : String)
    (v : A) : assocGet (assocPut l k v) k = some v := by
  unfold assocPut
  split
  case isTrue hmem =>
    induction l with
    | nil => simp at hmem
    | cons a rest ih =>
        by_cases ha : a.1 = k
        · simp [assocGet, ha]
        · have hmem2 : (rest.any fun p => decide (p.1 = k)) = true := by
            simpa [List.any_cons, ha] using hmem
          have hrec := ih hmem2
          simpa [assocGet, List.map_cons, ha] using hrec
  case isFalse hmem =>
    have hnone : l.find? (fun p => decide (p.1 = k)) = none := by
      rw [List.find?_eq_none]
      intro p hp
      simp only [decide_eq_true_eq]
      intro hk
      exact hmem (List.any_eq_true.mpr ⟨p, hp, by simp [hk]⟩)
    simp [assocGet, List.find?_append, hnone]

theorem assocGet_assocDelete_self {A : Type} (l : List (String × A))
    (k : String) : assocGet (assocDelete l k) k = none := by
  have hnone : (assocDelete l k).find? (fun p => decide (p.1 = k)) = none := by
    rw [List.find?_eq_none]
    intro p hp hpk
    unfold assocDelete at hp
    rw [List.mem_filter] at hp
    simp only [decide_eq_true_eq] at hpk
    have h2 := hp.2
    simp [hpk] at h2
  simp [assocGet, hnone]

theorem tableGet_map_of_id_eq (g : Entity → Entity) (h : ∀ e, (g e).id = e.id)
    (rows : List Entity) (i : String) :
    tableGet (rows.map g) i = (tableGet rows i).map g := by
  unfold tableGet
  rw [List.find?_map]
  have hp : ((fun e => decide (e.id = i)) ∘ g) = (fun e => decide (e.id = i)) := by
    funext e
    simp [Function.comp, h]
  rw [hp]

theorem applyMods_id (e : Entity) (m : Modifications) :
    (applyMods e m).id = e.id := rfl

theorem tableGet_id_of_some (rows : List Entity) (i : String) (e : Entity)
    (h : tableGet rows i = some e) : e.id = i := by
  unfold tableGet at h
  have := List.find?_some h
  simpa using this

theorem tableGet_tableUpdate_ne (now : Nat) (rows : List Entity) (id : String)
    (mods : Modifications) (i : String) (h : i ≠ id) :
    tableGet (tableUpdate now rows id mods) i = tableGet rows i := by
  unfold tableUpdate
  rw [tableGet_map_of_id_eq]
  · cases hfind : tableGet rows i with
    | none => rfl
    | some e =>
        have he : e.id = i := tableGet_id_of_some rows i e hfind
        simp [Option.map, he, h]
  · intro e
    by_cases he : e.id = id <;> simp [he, applyMods_id]

theorem tableGet_tableUpdate_self (now : Nat) (rows : List Entity)
    (mods : Modifications) (i : String) (e : Entity)
    (hfind : tableGet rows i = some e) :
    tableGet (tableUpdate now rows i mods) i =
      some (applyMods e (updatingHook now mods)) := by
  unfold tableUpdate
  rw [tableGet_map_of_id_eq]
  · rw [hfind]
    have he : e.id = i := tableGet_id_of_some rows i e hfind
    simp [Option.map, he]
  · intro e'
    by_cases he' : e'.id = i <;> simp [he', applyMods_id]

theorem tableGet_tableModifyWhereIdIn (now : Nat) (rows : List Entity)
    (ids : List String) (mods : Modifications) (i : String) (e : Entity)
    (hfind : tableGet rows i = some e) :
    tableGet (tableModifyWhereIdIn now rows ids mods) i =
      some (if ids.contains e.id then applyMods e (updatingHook now mods) else e) := by
  unfold tableModifyWhereIdIn
  rw [tableGet_map_of_id_eq]
  · rw [hfind]
    rfl
  · intro e'
    split <;> simp [applyMods_id]

theorem tableGet_append_left (rows l : List Entity) (i : String) (e : Entity)
    (h : tableGet rows i = some e) : tableGet (rows ++ l) i = some e := by
  unfold tableGet at *
  rw [List.find?_append, h]
  rfl

theorem dbTable_dbSetTable_self (db : Db) (n : String) (rows : List Entity) :
    dbTable (dbSetTable db n rows) n = rows := by
  simp [dbTable, dbSetTable, assocGet_assocPut_self]

theorem dbSetTable_syncMeta (db : Db) (n : String) (rows : List Entity) :
    (dbSetTable db n rows).syncMeta = db.syncMeta := rfl

theorem foldl_invariant {A B : Type} (P : B → Prop) (g : B → A → B)
    (h : ∀ acc a, P acc → P (g acc a)) (l : List A) (b : B) (hb : P b) :
    P (l.foldl g b) := by
  induction l generalizing b with
  | nil => exact hb
  | cons a rest ih => exact ih (g b a) (h b a hb)

theorem markApplied_syncMeta (now : Nat) (changes : List EntityChange)
    (applied : List String) (db : Db) :
    (markApplied now changes applied db).syncMeta = db.syncMeta := by
  unfold markApplied
  refine foldl_invariant (fun acc => acc.syncMeta = db.syncMeta) _ ?_
    syncConfig.tables db rfl
  intro acc a hacc
  rw [dbSetTable_syncMeta]
  exact hacc

theorem markConflicts_syncMeta (now : Nat) (conflicts : List ConflictInfo)
    (db : Db) : (markConflicts now conflicts db).syncMeta = db.syncMeta := by
  unfold markConflicts
  refine foldl_invariant (fun acc => acc.syncMeta = db.syncMeta) _
    (fun acc a hacc => ?_) conflicts db rfl
  unfold applyConflict
  cases syncConfig.tables.find?
      (fun tableName => (tableGet (dbTable acc tableName) a.id).isSome) with
  | none => exact hacc
  | some t => rw [dbSetTable_syncMeta]; exact hacc

theorem pushChanges_syncMeta (sera : Serializer) (now : Nat) (db : Db)
    (resp : BatchPushResponse) :
    (pushChanges sera now db resp).db.syncMeta = db.syncMeta := by
  unfold pushChanges
  dsimp only
  by_cases h : (gatherChanges sera db).isEmpty
  · rw [if_pos h]
  · rw [if_neg h]
    dsimp only
    rw [markConflicts_syncMeta, markApplied_syncMeta]

theorem pullChanges_tables_syncMeta (dsl : Deserializer) (now : Nat) (db : Db)
    (resp : ChangesResponse) :
    (syncConfig.tables.foldl
      (fun (acc : Db × Nat) tableName =>
        let syncType := getSyncType tableName
        let tableChanges := (assocGet resp.changes syncType).getD []
        let step :=
          applyPullChanges dsl now tableName (dbTable acc.1 tableName) tableChanges
        (dbSetTable acc.1 tableName step.1, acc.2 + step.2))
      (db, 0)).1.syncMeta = db.syncMeta := by
  refine foldl_invariant (fun (acc : Db × Nat) => acc.1.syncMeta = db.syncMeta) _
    ?_ syncConfig.tables (db, 0) rfl
  intro acc a hacc
  dsimp only
  rw [dbSetTable_syncMeta]
  exact hacc

theorem pullChanges_syncMeta (dsl : Deserializer) (now : Nat) (db : Db)
    (resp : ChangesResponse) :
    (pullChanges dsl now db resp).1.syncMeta =
      (match resp.syncToken with
        | some t => if t = "" then db.syncMeta
                    else assocPut db.syncMeta "lastSyncToken" t
        | none => db.syncMeta) := by
  unfold pullChanges
  have h := pullChanges_tables_syncMeta dsl now db resp
  cases htok : resp.syncToken with
  | none => simpa [htok] using h
  | some t =>
      by_cases ht : t = ""
      · simpa [htok, ht] using h
      · simp only [htok, ht, if_false]
        rw [h]

/-- C3: the persisted sync cursor is never updated by push — after
pushChanges the stored syncMeta row for lastSyncToken (indeed the whole
syncMeta table) equals its value before the push, whatever syncToken the
push response carries; and pullChanges rewrites syncMeta exactly when the
pull response carries a truthy (non-null, non-empty) syncToken, leaving it
unchanged otherwise. -/
theorem cursor_only_advances_from_pull (sera : Serializer) (dsl : Deserializer)
    (now : Nat) (db : Db) (pushResp : BatchPushResponse)
    (pullResp : ChangesResponse) :
    lastSyncToken (pushChanges sera now db pushResp).db = lastSyncToken db ∧
    (pushChanges sera now db pushResp).db.syncMeta = db.syncMeta ∧
    (pullChanges dsl now db pullResp).1.syncMeta =
      (match pullResp.syncToken with
        | some t => if t = "" then db.syncMeta
                    else assocPut db.syncMeta "lastSyncToken" t
        | none => db.syncMeta) := by
  refine ⟨?_, pushChanges_syncMeta sera now db pushResp,
    pullChanges_syncMeta dsl now db pullResp⟩
  unfold lastSyncToken
  rw [pushChanges_syncMeta]

/-- C8: constructing the operation journal at process start with a stale
journal entry present removes the entry and logs exactly one warning,
issues no network push and writes no entity; with no entry present it does
nothing at all. The next regular pending scan is what retries the ids. -/
theorem operationLog_crash_recovery (op : Operation) :
    operationLogConstruct (some op) =
      { journal := none, warnings := 1, pushRequests := 0,
        entityIdsWritten := [] } ∧
    operationLogConstruct none =
      { journal := none, warnings := 0, pushRequests := 0,
        entityIdsWritten := [] } :=
  ⟨rfl, rfl⟩

theorem api_error_message_is_not_auth (x : String) :
    ("API error: " ++ x) ≠ "Not authenticated" ∧
    ("API error: " ++ x) ≠ "Authentication expired" := by
  constructor <;> intro h <;>
    · have hd := congrArg String.data h
      simp [String.data_append] at hd

/-- C9: authentication-error classification — a transport request with no
bearer token fails with Not authenticated and a 401 response fails with
Authentication expired; when performSync catches either of those two
messages it sets engine status error and fires the auth-error event; any
other error message never fires the auth-error event, and in particular any
other failing HTTP status produces an API error message distinct from both
authentication messages. -/
theorem auth_error_classification (token : String) (status : Nat)
    (message : String) (online : Bool)
    (hfail : ¬(200 ≤ status ∧ status < 300)) (h401 : status ≠ 401) :
    apiRequest none status = Except.error "Not authenticated" ∧
    apiRequest (some token) 401 = Except.error "Authentication expired" ∧
    handleSyncError "Not authenticated" online = (EngineStatus.error, true) ∧
    handleSyncError "Authentication expired" online = (EngineStatus.error, true) ∧
    (message ≠ "Not authenticated" → message ≠ "Authentication expired" →
      (handleSyncError message online).2 = false) ∧
    apiRequest (some token) status =
      Except.error ("API error: " ++ toString status) ∧
    (handleSyncError ("API error: " ++ toString status) online).2 = false := by
  refine ⟨rfl, rfl, by simp [handleSyncError], by simp [handleSyncError],
    ?_, ?_, ?_⟩
  · intro h1 h2
    simp only [handleSyncError, h1, h2, if_false]
    by_cases hon : online <;> simp [hon]
  · unfold apiRequest
    have : (200 ≤ status && status < 300) = false := by
      simp only [Bool.and_eq_false_iff, decide_eq_false_iff_not]
      omega
    simp [this, h401]
  · have hne := api_error_message_is_not_auth (toString status)
    simp only [handleSyncError, hne.1, hne.2, if_false]
    by_cases hon : online <;> simp [hon]

/-- C9 witness: the classification applied at token tok and failing status
500. -/
theorem auth_error_classification_witness :
    apiRequest none 500 = Except.error "Not authenticated" ∧
    apiRequest (some "tok") 401 = Except.error "Authentication expired" ∧
    handleSyncError "Not authenticated" true = (EngineStatus.error, true) ∧
    handleSyncError "Authentication expired" true = (EngineStatus.error, true) ∧
    ("boom" ≠ "Not authenticated" → "boom" ≠ "Authentication expired" →
      (handleSyncError "boom" true).2 = false) ∧
    apiRequest (some "tok") 500 =
      Except.error ("API error: " ++ toString 500) ∧
    (handleSyncError ("API error: " ++ toString 500) true).2 = false :=
  auth_error_classification "tok" 500 "boom" true (by decide) (by decide)

/-- C10: precondition guards — syncNow called without an api client throws
SyncEngine not initialized, and with an api client but no config throws
SyncEngine not configured, in both cases synchronously and with the engine
state (status, in-flight promise, performSync count — hence any store write
or network request) untouched; forceFullSync checks only configuration:
without a config it throws SyncEngine not configured with everything
untouched, while with a config it never throws at its own guard even when
no api client was supplied. -/
theorem sync_precondition_guards (online : Bool) (s : EngineState) (db : Db) :
    (s.apiSet = false →
      syncNowStep online s =
        (SyncCallOutcome.threw "SyncEngine not initialized", s)) ∧
    (s.apiSet = true → s.configSet = false →
      syncNowStep online s =
        (SyncCallOutcome.threw "SyncEngine not configured", s)) ∧
    (s.configSet = false →
      forceFullSyncStep online s db =
        (SyncCallOutcome.threw "SyncEngine not configured", s, db)) ∧
    (s.configSet = true →
      ∀ msg, (forceFullSyncStep online s db).1 ≠ SyncCallOutcome.threw msg) := by
  refine ⟨?_, ?_, ?_, ?_⟩
  · intro hapi
    simp [syncNowStep, hapi]
  · intro hapi hcfg
    simp [syncNowStep, hapi, hcfg]
  · intro hcfg
    simp [forceFullSyncStep, hcfg]
  · intro hcfg msg
    unfold forceFullSyncStep
    rw [hcfg]
    by_cases hon : online <;> simp [hon]

/-- C10 witness: the guards applied at concrete uninitialized and
unconfigured engine states. -/
theorem sync_precondition_guards_witness :
    (syncNowStep true
        { apiSet := false, configSet := false, status := EngineStatus.idle,
          currentSyncPromise := none, nextPromise := 0, performSyncStarts := 0 } =
      (SyncCallOutcome.threw "SyncEngine not initialized",
        { apiSet := false, configSet := false, status := EngineStatus.idle,
          currentSyncPromise := none, nextPromise := 0,
          performSyncStarts := 0 })) ∧
    (syncNowStep true
        { apiSet := true, configSet := false, status := EngineStatus.idle,
          currentSyncPromise := none, nextPromise := 0, performSyncStarts := 0 } =
      (SyncCallOutcome.threw "SyncEngine not configured",
        { apiSet := true, configSet := false, status := EngineStatus.idle,
          currentSyncPromise := none, nextPromise := 0,
          performSyncStarts := 0 })) ∧
    (forceFullSyncStep true
        { apiSet := false, configSet := true, status := EngineStatus.idle,
          currentSyncPromise := none, nextPromise := 0, performSyncStarts := 0 }
        { tables := [("tasks", [])], syncMeta := [] }).1 ≠
      SyncCallOutcome.threw "SyncEngine not initialized" :=
  ⟨(sync_precondition_guards true
      { apiSet := false, configSet := false, status := EngineStatus.idle,
        currentSyncPromise := none, nextPromise := 0, performSyncStarts := 0 }
      { tables := [("tasks", [])], syncMeta := [] }).1 rfl,
   (sync_precondition_guards true
      { apiSet := true, configSet := false, status := EngineStatus.idle,
        currentSyncPromise := none, nextPromise := 0, performSyncStarts := 0 }
      { tables := [("tasks", [])], syncMeta := [] }).2.1 rfl rfl,
   (sync_precondition_guards true
      { apiSet := false, configSet := true, status := EngineStatus.idle,
        currentSyncPromise := none, nextPromise := 0, performSyncStarts := 0 }
      { tables := [("tasks", [])], syncMeta := [] }).2.2.2 rfl
      "SyncEngine not initialized"⟩

/-- Current retry count (src/sync/retryQueue.ts, getAttemptCount): the
stored attemptCount, 0 when no state is persisted. -/
def getAttemptCount (q : RetryQueueState) : Nat :=
  match q.state with
  | some st => st.attemptCount
  | none => 0

theorem scheduleRetry_state (now : Nat) (q : RetryQueueState) :
    (scheduleRetry now q).state = q.state := by
  unfold scheduleRetry
  rcases hq : q.state with _ | st <;> rcases ht : q.timer with _ | d <;>
      simp [hq, ht]
  split <;> simp [hq]

theorem consecutiveFailures_five (t0 : Nat) :
    consecutiveFailures t0 5 =
      { state := some
          { attemptCount := 5, lastAttempt := t0, nextAttempt := t0 + 300000 }
        timer := none } := by
  simp [consecutiveFailures, recordFailure, fireTimer, scheduleRetry,
    BACKOFF_MS, MAX_RETRIES, Nat.add_sub_cancel_left]

/-- C6 counterexample: with the fifth consecutive failure the code records
attemptCount 5 and a nextAttempt 300000 ms later, but arms no retry timer at
all (scheduleRetry returns as soon as the attempt count has reached
MAX_RETRIES), contradicting the claim that failure n is scheduled with
delay BACKOFF_MS at index min (n-1) 4 up to a maximum of 5 attempts —
BACKOFF_MS at index 4 is 300000 yet no timer carries it. -/
theorem retry_fifth_failure_unscheduled_cex :
    (consecutiveFailures 0 5).state =
      some { attemptCount := 5, lastAttempt := 0, nextAttempt := 300000 } ∧
    (consecutiveFailures 0 5).timer = none ∧
    BACKOFF_MS.getD (min (5 - 1) (BACKOFF_MS.length - 1)) 0 = 300000 ∧
    (consecutiveFailures 0 4).timer = some 60000 := by
  refine ⟨?_, ?_, by decide, by decide⟩ <;>
    simp [consecutiveFailures_five]

/-- C6 (amended): failure n for n in 1..4 records attemptCount n and arms a
retry timer with delay BACKOFF_MS at index n-1 (1s, 5s, 15s, 1m); the fifth
consecutive failure records attemptCount 5 with nextAttempt 5m later but
arms no timer, because the attempt count has reached MAX_RETRIES; any
failure beyond the fifth leaves the state (hence attemptCount 5) untouched
and arms no timer; the persisted attemptCount never exceeds 5. -/
theorem retry_backoff_bounds (now t0 : Nat) (q : RetryQueueState)
    (st : RetryState) :
    (q.state = none → q.timer = none →
      recordFailure now q =
        { state := some
            { attemptCount := 1, lastAttempt := now, nextAttempt := now + 1000 }
          timer := some 1000 }) ∧
    (q.state = some st → q.timer = none → st.attemptCount + 1 ≤ 4 →
      recordFailure now q =
        { state := some
            { attemptCount := st.attemptCount + 1, lastAttempt := now
              nextAttempt := now + BACKOFF_MS.getD st.attemptCount 0 }
          timer := some (BACKOFF_MS.getD st.attemptCount 0) }) ∧
    (q.state = some st → q.timer = none → st.attemptCount = 4 →
      recordFailure now q =
        { state := some
            { attemptCount := 5, lastAttempt := now
              nextAttempt := now + 300000 }
          timer := none }) ∧
    (q.state = some st → 5 ≤ st.attemptCount → recordFailure now q = q) ∧
    (getAttemptCount q ≤ 5 → getAttemptCount (recordFailure now q) ≤ 5) ∧
    (∀ m, consecutiveFailures t0 (5 + m) = consecutiveFailures t0 5) := by
  refine ⟨?_, ?_, ?_, ?_, ?_, ?_⟩
  · intro hst htm
    simp [recordFailure, scheduleRetry, hst, htm, BACKOFF_MS, MAX_RETRIES,
      Nat.add_sub_cancel_left]
  · intro hst htm hle
    have hcount : st.attemptCount ≤ 3 := by omega
    have hnotpast : ¬(st.attemptCount + 1 > MAX_RETRIES) := by
      simp [MAX_RETRIES]
      omega
    have hmin : min st.attemptCount (BACKOFF_MS.length - 1) =
        st.attemptCount := by
      simp [BACKOFF_MS]
      omega
    have hlt : ¬(st.attemptCount + 1 ≥ MAX_RETRIES) := by
      simp [MAX_RETRIES]
      omega
    simp [recordFailure, scheduleRetry, hst, htm, hnotpast, hmin, hlt,
      Nat.add_sub_cancel_left]
  · intro hst htm hc
    simp [recordFailure, scheduleRetry, hst, htm, hc, BACKOFF_MS, MAX_RETRIES,
      Nat.add_sub_cancel_left]
  · intro hst hge
    have hpast : st.attemptCount + 1 > MAX_RETRIES := by
      simp [MAX_RETRIES]
      omega
    simp [recordFailure, hst, hpast]
  · intro hle
    unfold recordFailure
    dsimp only
    split
    · exact hle
    · rename_i hnotpast
      unfold getAttemptCount
      rw [scheduleRetry_state]
      dsimp only
      simp only [MAX_RETRIES, gt_iff_lt, not_lt] at hnotpast
      omega
  · intro m
    induction m with
    | zero => rfl
    | succ k ih =>
        have : 5 + (k + 1) = (5 + k) + 1 := by omega
        rw [this]
        show recordFailure t0 (fireTimer (consecutiveFailures t0 (5 + k))) =
          consecutiveFailures t0 5
        rw [ih, consecutiveFailures_five]
        simp [fireTimer, recordFailure, MAX_RETRIES]

/-- C6 witness: the amended bounds applied at the fourth-to-fifth failure
step (the state recorded by four earlier failures, timer fired): the fifth
failure stores attemptCount 5 and arms no timer. -/
theorem retry_backoff_bounds_witness :
    recordFailure 100
        { state := some
            { attemptCount := 4, lastAttempt := 0, nextAttempt := 60000 }
          timer := none } =
      { state := some
          { attemptCount := 5, lastAttempt := 100, nextAttempt := 100 + 300000 }
        timer := none } :=
  (retry_backoff_bounds 100 0
      { state := some
          { attemptCount := 4, lastAttempt := 0, nextAttempt := 60000 }
        timer := none }
      { attemptCount := 4, lastAttempt := 0, nextAttempt := 60000 }).2.2.1
    rfl rfl rfl

/-- C2: at-most-one in-flight sync — with the engine initialized,
configured, online and no sync in flight, the first syncNow call starts
performSync memoized under a fresh promise; a second call made while that
sync is in flight returns the very same promise (the memoized in-flight
result), changes nothing, and starts no further performSync run, so the two
calls together start exactly one push-then-pull cycle; provided at least
one local change is pending, that one cycle issues exactly one network push
request and exactly one network pull request. -/
theorem syncNow_at_most_one_inflight (s : EngineState) (sera : Serializer)
    (dsl : Deserializer) (now : Nat) (db : Db) (pushResp : BatchPushResponse)
    (pullResp : ChangesResponse)
    (hapi : s.apiSet = true) (hcfg : s.configSet = true)
    (hidle : s.currentSyncPromise = none)
    (hpending : gatherChanges sera db ≠ []) :
    (syncNowStep true s).1 = SyncCallOutcome.started s.nextPromise ∧
    (syncNowStep true (syncNowStep true s).2).1 =
      SyncCallOutcome.joined s.nextPromise ∧
    (syncNowStep true (syncNowStep true s).2).2 = (syncNowStep true s).2 ∧
    (syncNowStep true (syncNowStep true s).2).2.performSyncStarts =
      s.performSyncStarts + 1 ∧
    (performSyncCycle sera dsl now db pushResp pullResp).pushRequests = 1 ∧
    (performSyncCycle sera dsl now db pushResp pullResp).pullRequests = 1 := by
  have hstep : syncNowStep true s =
      (SyncCallOutcome.started s.nextPromise,
        { s with
          status := EngineStatus.syncing
          currentSyncPromise := some s.nextPromise
          nextPromise := s.nextPromise + 1
          performSyncStarts := s.performSyncStarts + 1 }) := by
    simp [syncNowStep, hapi, hcfg, hidle]
  have hpush : (pushChanges sera now db pushResp).requests = 1 := by
    unfold pushChanges
    cases hl : gatherChanges sera db with
    | nil => exact absurd hl hpending
    | cons a t => simp [hl]
  refine ⟨by rw [hstep], ?_, ?_, ?_, ?_, rfl⟩
  · rw [hstep]
    simp [syncNowStep, hapi, hcfg]
  · rw [hstep]
    simp [syncNowStep, hapi, hcfg]
  · rw [hstep]
    simp [syncNowStep, hapi, hcfg]
  · unfold performSyncCycle
    dsimp only
    exact hpush

/-- C2 witness: two back-to-back syncNow calls on a freshly initialized and
configured engine with one pending task: the first starts promise 0, the
second joins promise 0, and the cycle issues one push and one pull
request. -/
theorem syncNow_at_most_one_inflight_witness :
    (syncNowStep true
        { apiSet := true, configSet := true, status := EngineStatus.idle,
          currentSyncPromise := none, nextPromise := 0,
          performSyncStarts := 0 }).1 = SyncCallOutcome.started 0 ∧
    (syncNowStep true
        (syncNowStep true
          { apiSet := true, configSet := true, status := EngineStatus.idle,
            currentSyncPromise := none, nextPromise := 0,
            performSyncStarts := 0 }).2).1 = SyncCallOutcome.joined 0 ∧
    (performSyncCycle (fun _ e => e.data) (fun _ p _ => p) 7
        { tables := [("tasks",
            [{ id := "A", data := "d", _syncStatus := SyncStatus.pending,
               _localUpdatedAt := 1, deletedAt := none }])]
          syncMeta := [] }
        { applied := ["A"], conflicts := [], syncToken := "t1" }
        { changes := [], syncToken := some "t2" }).pushRequests = 1 := by
  have h := syncNow_at_most_one_inflight
    { apiSet := true, configSet := true, status := EngineStatus.idle,
      currentSyncPromise := none, nextPromise := 0, performSyncStarts := 0 }
    (fun _ e => e.data) (fun _ p _ => p) 7
    { tables := [("tasks",
        [{ id := "A", data := "d", _syncStatus := SyncStatus.pending,
           _localUpdatedAt := 1, deletedAt := none }])]
      syncMeta := [] }
    { applied := ["A"], conflicts := [], syncToken := "t1" }
    { changes := [], syncToken := some "t2" }
    rfl rfl rfl (by decide)
  exact ⟨h.1, h.2.1, h.2.2.2.2.1⟩

/-- C7 counterexample: forceFullSync on an engine that is configured but
currently offline returns the zero result and sets status offline without
deleting the persisted cursor — the stored lastSyncToken survives, so a
subsequent pull would still carry a since parameter, contradicting the
claim that every forceFullSync call deletes the cursor. -/
theorem forceFullSync_offline_keeps_cursor_cex :
    forceFullSyncStep false
        { apiSet := true, configSet := true, status := EngineStatus.idle,
          currentSyncPromise := none, nextPromise := 0, performSyncStarts := 0 }
        { tables := [("tasks", [])], syncMeta := [("lastSyncToken", "tok-1")] } =
      (SyncCallOutcome.offlineResult,
        { apiSet := true, configSet := true, status := EngineStatus.offline,
          currentSyncPromise := none, nextPromise := 0, performSyncStarts := 0 },
        { tables := [("tasks", [])], syncMeta := [("lastSyncToken", "tok-1")] }) ∧
    lastSyncToken
        { tables := [("tasks", [])], syncMeta := [("lastSyncToken", "tok-1")] } =
      some "tok-1" ∧
    assocGet
        (getChangesParams ["tasks"]
          (lastSyncToken
            { tables := [("tasks", [])],
              syncMeta := [("lastSyncToken", "tok-1")] })
          (some "client-1")) "since" = some "tok-1" := by
  refine ⟨?_, rfl, rfl⟩
  simp [forceFullSyncStep]

/-- C7 (amended): when the engine is configured and online, forceFullSync
(after awaiting any in-flight sync) deletes the persisted lastSyncToken and
starts a new memoized sync; the getChanges request built from the now-absent
cursor carries no since parameter (full history is requested), and the
cursor stays absent through the cycle's push and through any pull whose
response carries no sync token — only a pull response token re-creates
it. -/
theorem forceFullSync_clears_cursor (s : EngineState) (db : Db)
    (sera : Serializer) (dsl : Deserializer) (now : Nat)
    (pushResp : BatchPushResponse) (resp : ChangesResponse)
    (cid : Option String) (types : List String)
    (hcfg : s.configSet = true) (htok : resp.syncToken = none) :
    (forceFullSyncStep true s db).1 = SyncCallOutcome.started s.nextPromise ∧
    lastSyncToken (forceFullSyncStep true s db).2.2 = none ∧
    assocGet
      (getChangesParams types (lastSyncToken (forceFullSyncStep true s db).2.2)
        cid) "since" = none ∧
    lastSyncToken
      (pushChanges sera now (forceFullSyncStep true s db).2.2 pushResp).db =
      none ∧
    lastSyncToken
      (pullChanges dsl now (forceFullSyncStep true s db).2.2 resp).1 = none := by
  have hdb : lastSyncToken (forceFullSyncStep true s db).2.2 = none := by
    simp [forceFullSyncStep, hcfg, lastSyncToken, assocGet_assocDelete_self]
  refine ⟨by simp [forceFullSyncStep, hcfg], hdb, ?_, ?_, ?_⟩
  · rw [hdb]
    cases cid with
    | none => simp [getChangesParams, assocGet]
    | some c =>
        by_cases hc : c = "" <;> simp [getChangesParams, assocGet, hc]
  · unfold lastSyncToken
    rw [pushChanges_syncMeta]
    exact hdb
  · unfold lastSyncToken
    rw [pullChanges_syncMeta, htok]
    exact hdb

/-- C7 witness: the amended behaviour applied to a configured online engine
holding a stored cursor: the cursor row is gone afterwards and the pull
request carries no since parameter. -/
theorem forceFullSync_clears_cursor_witness :
    lastSyncToken
        (forceFullSyncStep true
          { apiSet := true, configSet := true, status := EngineStatus.idle,
            currentSyncPromise := none, nextPromise := 0,
            performSyncStarts := 0 }
          { tables := [("tasks", [])],
            syncMeta := [("lastSyncToken", "tok-1")] }).2.2 = none ∧
    assocGet
        (getChangesParams ["tasks"]
          (lastSyncToken
            (forceFullSyncStep true
              { apiSet := true, configSet := true, status := EngineStatus.idle,
                currentSyncPromise := none, nextPromise := 0,
                performSyncStarts := 0 }
              { tables := [("tasks", [])],
                syncMeta := [("lastSyncToken", "tok-1")] }).2.2)
          (some "client-1")) "since" = none := by
  have h := forceFullSync_clears_cursor
    { apiSet := true, configSet := true, status := EngineStatus.idle,
      currentSyncPromise := none, nextPromise := 0, performSyncStarts := 0 }
    { tables := [("tasks", [])], syncMeta := [("lastSyncToken", "tok-1")] }
    (fun _ e => e.data) (fun _ p _ => p) 7
    { applied := [], conflicts := [], syncToken := "t" }
    { changes := [], syncToken := none }
    (some "client-1") ["tasks"] rfl rfl
  exact ⟨h.2.1, h.2.2.1⟩

theorem foldl_invariant_mem {A B : Type} (P : B → Prop) (g : B → A → B)
    (l : List A) (h : ∀ acc a, a ∈ l → P acc → P (g acc a)) (b : B)
    (hb : P b) : P (l.foldl g b) := by
  induction l generalizing b with
  | nil => exact hb
  | cons a rest ih =>
      exact ih (fun acc x hx hacc => h acc x (List.mem_cons_of_mem a hx) hacc)
        (g b a) (h b a (List.mem_cons_self a rest) hb)

theorem applyPullChange_preserves_pending (dsl : Deserializer) (now : Nat)
    (tableName : String) (acc : List Entity × Nat) (c : EntityChangeResponse)
    (e : Entity) (hfind : tableGet acc.1 e.id = some e)
    (hpend : e._syncStatus = SyncStatus.pending)
    (hc : c.operation = ChangeOp.del → c.id ≠ e.id) :
    tableGet (applyPullChange dsl now tableName acc c).1 e.id = some e := by
  unfold applyPullChange
  cases hop : c.operation with
  | del =>
      have hne : e.id ≠ c.id := fun h => (hc hop) h.symm
      dsimp only
      cases hex : tableGet acc.1 c.id with
      | none => exact hfind
      | some x =>
          dsimp only
          rw [tableGet_tableUpdate_ne _ _ _ _ _ hne]
          exact hfind
  | upsert =>
      dsimp only
      cases hdat : c.data with
      | none => exact hfind
      | some d =>
          dsimp only
          cases hex : tableGet acc.1 c.id with
          | none =>
              dsimp only [tablePutNew]
              exact tableGet_append_left _ _ _ _ hfind
          | some existing =>
              by_cases hp : existing._syncStatus = SyncStatus.pending
              · simp only [hp, if_true]
                exact hfind
              · have hne : e.id ≠ c.id := by
                  intro h
                  rw [← h, hfind] at hex
                  exact hp (Option.some.inj hex ▸ hpend)
                simp only [hp, if_false]
                rw [tableGet_tableUpdate_ne _ _ _ _ _ hne]
                exact hfind

theorem dbTable_congr (db db' : Db) (n : String) (h : db.tables = db'.tables) :
    dbTable db n = dbTable db' n := by
  unfold dbTable
  rw [h]

theorem pullChanges_tables_eq (dsl : Deserializer) (now : Nat) (db : Db)
    (resp : ChangesResponse) :
    (pullChanges dsl now db resp).1.tables =
      (syncConfig.tables.foldl
        (fun (acc : Db × Nat) tableName =>
          let syncType := getSyncType tableName
          let tableChanges := (assocGet resp.changes syncType).getD []
          let step := applyPullChanges dsl now tableName (dbTable acc.1 tableName)
            tableChanges
          (dbSetTable acc.1 tableName step.1, acc.2 + step.2))
        (db, 0)).1.tables := by
  unfold pullChanges
  dsimp only
  cases resp.syncToken with
  | none => rfl
  | some t => by_cases ht : t = "" <;> simp [ht]

/-- C1 counterexample: a pull that delivers a remote delete for an entity
whose local copy is pending does alter the local record — the delete branch
of pullChanges never consults the pending status, so the record's deletedAt
is overwritten with the remote timestamp and its _syncStatus flips from
pending to synced, contradicting the claim that a pull leaves every field
of a pending entity unchanged for upserts and deletes alike. -/
theorem pull_delete_overwrites_pending_cex :
    tableGet
        (dbTable
          (pullChanges (fun _ p _ => p) 99
            { tables := [("tasks",
                [{ id := "A", data := "d", _syncStatus := SyncStatus.pending,
                   _localUpdatedAt := 5, deletedAt := none }])]
              syncMeta := [] }
            { changes := [("tasks",
                [{ id := "A", operation := ChangeOp.del, data := none,
                   updatedAt := 0, deletedAt := some 7 }])]
              syncToken := none }).1 "tasks") "A" =
      some { id := "A", data := "d", _syncStatus := SyncStatus.synced,
             _localUpdatedAt := 5, deletedAt := some 7 } ∧
    SyncStatus.synced ≠ SyncStatus.pending ∧
    some (7 : Nat) ≠ (none : Option Nat) := by
  refine ⟨by decide, by decide, by decide⟩

/-- C1 (amended): local-wins-until-synced holds for upserts — for every
local entity whose _syncStatus is pending, a pull alters none of its fields
provided no delete change for its id is delivered for its table: every
remote upsert for that id is skipped entirely and changes for other ids or
tables leave it untouched. (A delivered remote delete, by contrast,
soft-deletes the record and marks it synced even while it is pending, as
the counterexample shows.) -/
theorem pull_preserves_pending (dsl : Deserializer) (now : Nat) (db : Db)
    (resp : ChangesResponse) (tableName : String) (e : Entity)
    (htab : tableName ∈ syncConfig.tables)
    (hfind : tableGet (dbTable db tableName) e.id = some e)
    (hpend : e._syncStatus = SyncStatus.pending)
    (hnodel : ∀ c ∈ (assocGet resp.changes (getSyncType tableName)).getD [],
        c.operation = ChangeOp.del → c.id ≠ e.id) :
    tableGet (dbTable (pullChanges dsl now db resp).1 tableName) e.id =
      some e := by
  have htn : tableName = "tasks" := by
    simpa [syncConfig] using htab
  subst htn
  rw [dbTable_congr _ _ _ (pullChanges_tables_eq dsl now db resp)]
  have htables : syncConfig.tables = ["tasks"] := rfl
  rw [htables, List.foldl_cons, List.foldl_nil]
  dsimp only
  rw [dbTable_dbSetTable_self]
  unfold applyPullChanges
  refine foldl_invariant_mem
    (fun (acc : List Entity × Nat) => tableGet acc.1 e.id = some e)
    (applyPullChange dsl now "tasks")
    ((assocGet resp.changes (getSyncType "tasks")).getD []) ?_ _ hfind
  intro acc c hmem hacc
  exact applyPullChange_preserves_pending dsl now "tasks" acc c e hacc hpend
    (hnodel c hmem)

/-- C1 witness: the amended property applied to a pending task receiving a
remote upsert for its own id (skipped) and an unrelated delete for another
id: the pending record is bit-for-bit unchanged after the pull. -/
theorem pull_preserves_pending_witness :
    tableGet
        (dbTable
          (pullChanges (fun _ p _ => p) 99
            { tables := [("tasks",
                [{ id := "A", data := "d", _syncStatus := SyncStatus.pending,
                   _localUpdatedAt := 5, deletedAt := none }])]
              syncMeta := [] }
            { changes := [("tasks",
                [{ id := "A", operation := ChangeOp.upsert,
                   data := some { id := "A", payload := "remote",
                                  updatedAt := 50 },
                   updatedAt := 50, deletedAt := none },
                 { id := "B", operation := ChangeOp.del, data := none,
                   updatedAt := 0, deletedAt := some 7 }])]
              syncToken := some "tok-2" }).1 "tasks") "A" =
      some { id := "A", data := "d", _syncStatus := SyncStatus.pending,
             _localUpdatedAt := 5, deletedAt := none } :=
  pull_preserves_pending (fun _ p _ => p) 99
    { tables := [("tasks",
        [{ id := "A", data := "d", _syncStatus := SyncStatus.pending,
           _localUpdatedAt := 5, deletedAt := none }])]
      syncMeta := [] }
    { changes := [("tasks",
        [{ id := "A", operation := ChangeOp.upsert,
           data := some { id := "A", payload := "remote", updatedAt := 50 },
           updatedAt := 50, deletedAt := none },
         { id := "B", operation := ChangeOp.del, data := none,
           updatedAt := 0, deletedAt := some 7 }])]
      syncToken := some "tok-2" }
    "tasks"
    { id := "A", data := "d", _syncStatus := SyncStatus.pending,
      _localUpdatedAt := 5, deletedAt := none }
    (by decide) (by decide) (by decide) (by decide)

/-- C4 counterexample: a write that explicitly sets _syncStatus to conflict
(as pushChanges does when marking a conflicted row) does not explicitly set
it to synced, yet the stored record ends with _syncStatus conflict — not
pending as the claim demands: the updating hook keeps an explicitly given
non-synced status instead of forcing pending. -/
theorem change_tracker_conflict_kept_cex :
    tableGet
        (tableUpdate 99
          [{ id := "A", data := "d", _syncStatus := SyncStatus.synced,
             _localUpdatedAt := 5, deletedAt := none }]
          "A" { _syncStatus := some SyncStatus.conflict }) "A" =
      some { id := "A", data := "d", _syncStatus := SyncStatus.conflict,
             _localUpdatedAt := 99, deletedAt := none } ∧
    SyncStatus.conflict ≠ SyncStatus.pending := by
  refine ⟨by decide, by decide⟩

/-- C4 (amended): change-tracker contract — a write to a configured table
that does not mention _syncStatus at all stores the record with _syncStatus
pending and _localUpdatedAt refreshed to now; a write that explicitly sets
any non-synced status stores that status (not pending), still with
_localUpdatedAt refreshed to now; a write that explicitly sets synced is
applied unchanged (the hook adds nothing); and a record created with the
status fields absent has them initialized to pending and now. -/
theorem change_tracker_contract (now : Nat) (rows : List Entity) (i : String)
    (e : Entity) (mods : Modifications) (obj : NewEntity)
    (hfind : tableGet rows i = some e) :
    (mods._syncStatus = none →
      tableGet (tableUpdate now rows i mods) i =
        some { e with
          data := mods.data.getD e.data
          deletedAt := mods.deletedAt.getD e.deletedAt
          _syncStatus := SyncStatus.pending
          _localUpdatedAt := now }) ∧
    (∀ st, mods._syncStatus = some st → st ≠ SyncStatus.synced →
      tableGet (tableUpdate now rows i mods) i =
        some { e with
          data := mods.data.getD e.data
          deletedAt := mods.deletedAt.getD e.deletedAt
          _syncStatus := st
          _localUpdatedAt := now }) ∧
    (mods._syncStatus = some SyncStatus.synced →
      tableGet (tableUpdate now rows i mods) i = some (applyMods e mods)) ∧
    (obj._syncStatus = none → obj._localUpdatedAt = none →
      NewEntity.store now (creatingHook now obj) =
        { id := obj.id, data := obj.data, _syncStatus := SyncStatus.pending,
          _localUpdatedAt := now, deletedAt := obj.deletedAt }) := by
  refine ⟨?_, ?_, ?_, ?_⟩
  · intro hm
    rw [tableGet_tableUpdate_self _ _ _ _ _ hfind]
    simp [updatingHook, applyMods, hm]
  · intro st hm hne
    rw [tableGet_tableUpdate_self _ _ _ _ _ hfind]
    have : mods._syncStatus ≠ some SyncStatus.synced := by
      rw [hm]
      exact fun h => hne (Option.some.inj h)
    simp [updatingHook, applyMods, this, hm, hne]
  · intro hm
    rw [tableGet_tableUpdate_self _ _ _ _ _ hfind]
    simp [updatingHook, hm]
  · intro hs hl
    simp [creatingHook, NewEntity.store, hs, hl]

/-- C4 witness: the contract applied to a write of plain data (no explicit
status, stored record ends pending with refreshed timestamp) and to a
creation with absent status fields. -/
theorem change_tracker_contract_witness :
    tableGet
        (tableUpdate 99
          [{ id := "A", data := "d", _syncStatus := SyncStatus.synced,
             _localUpdatedAt := 5, deletedAt := none }]
          "A" { data := some "d2" }) "A" =
      some { id := "A", data := "d2", _syncStatus := SyncStatus.pending,
             _localUpdatedAt := 99, deletedAt := none } ∧
    NewEntity.store 99
        (creatingHook 99
          { id := "B", data := "x", _syncStatus := none,
            _localUpdatedAt := none, deletedAt := none }) =
      { id := "B", data := "x", _syncStatus := SyncStatus.pending,
        _localUpdatedAt := 99, deletedAt := none } := by
  have h := change_tracker_contract 99
    [{ id := "A", data := "d", _syncStatus := SyncStatus.synced,
       _localUpdatedAt := 5, deletedAt := none }]
    "A"
    { id := "A", data := "d", _syncStatus := SyncStatus.synced,
      _localUpdatedAt := 5, deletedAt := none }
    { data := some "d2" }
    { id := "B", data := "x", _syncStatus := none,
      _localUpdatedAt := none, deletedAt := none }
    (by decide)
  exact ⟨h.1 rfl, h.2.2.2 rfl rfl⟩

theorem applyConflict_tableGet (now : Nat) (db : Db) (c : ConflictInfo)
    (i : String) (w : Entity)
    (hfind : tableGet (dbTable db "tasks") i = some w) :
    tableGet (dbTable (applyConflict now db c) "tasks") i =
      some (if c.id = i then
              applyMods w (updatingHook now { _syncStatus := some SyncStatus.conflict })
            else w) := by
  unfold applyConflict
  have htables : syncConfig.tables = ["tasks"] := rfl
  rw [htables]
  by_cases hcid : c.id = i
  · subst hcid
    rw [List.find?_cons_of_pos _ (by simp [hfind])]
    dsimp only
    rw [dbTable_dbSetTable_self, tableGet_tableUpdate_self _ _ _ _ _ hfind]
    simp
  · cases hf : List.find?
        (fun tableName => (tableGet (dbTable db tableName) c.id).isSome)
        ["tasks"] with
    | none =>
        rw [if_neg hcid]
        exact hfind
    | some t =>
        have ht : t = "tasks" := by
          have hmem := List.mem_of_find?_eq_some hf
          simpa using hmem
        subst ht
        dsimp only
        rw [dbTable_dbSetTable_self,
          tableGet_tableUpdate_ne _ _ _ _ _ (fun h => hcid h.symm), if_neg hcid]
        exact hfind

theorem markConflicts_tableGet (now : Nat) (conflicts : List ConflictInfo)
    (db : Db) (i : String) (f : Entity)
    (hfind : tableGet (dbTable db "tasks") i = some f) :
    tableGet (dbTable (markConflicts now conflicts db) "tasks") i =
      some (if conflicts.any (fun c => c.id = i) then
              { f with _syncStatus := SyncStatus.conflict
                       _localUpdatedAt := now }
            else f) := by
  induction conflicts generalizing db f with
  | nil => simpa [markConflicts] using hfind
  | cons c rest ih =>
      show tableGet
          (dbTable (markConflicts now rest (applyConflict now db c)) "tasks") i = _
      by_cases hcid : c.id = i
      · have hstep := applyConflict_tableGet now db c i f hfind
        rw [if_pos hcid] at hstep
        rw [ih (applyConflict now db c) _ hstep]
        have hval : applyMods f
            (updatingHook now { _syncStatus := some SyncStatus.conflict }) =
            { f with _syncStatus := SyncStatus.conflict
                     _localUpdatedAt := now } := by
          simp [applyMods, updatingHook]
        rw [hval]
        simp [List.any_cons, hcid]
      · have hstep := applyConflict_tableGet now db c i f hfind
        rw [if_neg hcid] at hstep
        rw [ih (applyConflict now db c) _ hstep]
        simp [List.any_cons, hcid]

theorem markApplied_tableGet (now : Nat) (changes : List EntityChange)
    (applied : List String) (db : Db) (i : String) (f : Entity)
    (hfind : tableGet (dbTable db "tasks") i = some f) :
    tableGet (dbTable (markApplied now changes applied db) "tasks") i =
      some (if (applied.filter (fun id =>
              changes.any (fun c => c.ctype = getSyncType "tasks" &&
                c.changeId = id))).contains f.id
            then applyMods f (updatingHook now { _syncStatus := some SyncStatus.synced })
            else f) := by
  unfold markApplied
  have htables : syncConfig.tables = ["tasks"] := rfl
  rw [htables, List.foldl_cons, List.foldl_nil]
  dsimp only
  rw [dbTable_dbSetTable_self, tableGet_tableModifyWhereIdIn _ _ _ _ _ _ hfind]

theorem gatherChanges_has_pending (sera : Serializer) (db : Db) (f : Entity)
    (hmem : f ∈ dbTable db "tasks")
    (hpend : f._syncStatus = SyncStatus.pending) :
    (gatherChanges sera db).any
      (fun c => c.ctype = getSyncType "tasks" && c.changeId = f.id) = true ∧
    gatherChanges sera db ≠ [] := by
  have hver : (gatherChanges sera db).any
      (fun c => c.ctype = getSyncType "tasks" && c.changeId = f.id) = true := by
    unfold gatherChanges
    have htables : syncConfig.tables = ["tasks"] := rfl
    rw [htables, List.foldl_cons, List.foldl_nil]
    dsimp only
    rw [List.nil_append]
    apply List.any_eq_true.mpr
    refine ⟨(fun e =>
      match e.deletedAt with
      | some d => EntityChange.del (getSyncType "tasks") e.id d
      | none =>
          EntityChange.upsert (getSyncType "tasks")
            { id := e.id, payload := sera "tasks" e
              updatedAt := e._localUpdatedAt }) f, ?_, ?_⟩
    · exact List.mem_map_of_mem _
        (List.mem_filter.mpr ⟨hmem, by simp [hpend]⟩)
    · cases hdel : f.deletedAt <;>
        simp [hdel, EntityChange.ctype, EntityChange.changeId]
  refine ⟨hver, ?_⟩
  intro hnil
  rw [hnil] at hver
  simp at hver

/-- C5 counterexample: marking a conflicted row changes more than its sync
status — the conflict update passes through the change-tracker updating
hook, which refreshes _localUpdatedAt to the current time, so a field other
than _syncStatus is modified (here from 10 to 99), contradicting the claim
that every other field of the record is left untouched. -/
theorem push_conflict_touches_timestamp_cex :
    tableGet
        (dbTable
          (pushChanges (fun _ e => e.data) 99
            { tables := [("tasks",
                [{ id := "B", data := "d", _syncStatus := SyncStatus.pending,
                   _localUpdatedAt := 10, deletedAt := none }])]
              syncMeta := [] }
            { applied := [],
              conflicts := [{ id := "B", serverVersion := "sv",
                              resolution := "server_wins" }],
              syncToken := "t" }).db "tasks") "B" =
      some { id := "B", data := "d", _syncStatus := SyncStatus.conflict,
             _localUpdatedAt := 99, deletedAt := none } ∧
    (99 : Nat) ≠ 10 := by
  refine ⟨by decide, by decide⟩

/-- C5 (amended): push response handling — for a locally pending record
whose id the response reports as applied (and not as conflicted), the
stored record afterwards is the same record with _syncStatus synced and
every other field untouched; for a record whose id the response reports as
conflicted, the stored record afterwards keeps its id, data and deletedAt
untouched and gets _syncStatus conflict, but its _localUpdatedAt is
refreshed to now by the change-tracker hook (it is not left untouched). -/
theorem push_response_processing (sera : Serializer) (now : Nat) (db : Db)
    (resp : BatchPushResponse) (f : Entity)
    (hfind : tableGet (dbTable db "tasks") f.id = some f)
    (hpend : f._syncStatus = SyncStatus.pending) :
    (f.id ∈ resp.applied → (∀ c ∈ resp.conflicts, c.id ≠ f.id) →
      tableGet (dbTable (pushChanges sera now db resp).db "tasks") f.id =
        some { f with _syncStatus := SyncStatus.synced }) ∧
    ((∃ c ∈ resp.conflicts, c.id = f.id) →
      tableGet (dbTable (pushChanges sera now db resp).db "tasks") f.id =
        some { f with _syncStatus := SyncStatus.conflict
                      _localUpdatedAt := now }) := by
  have hmem : f ∈ dbTable db "tasks" := by
    unfold tableGet at hfind
    exact List.mem_of_find?_eq_some hfind
  have hgather := gatherChanges_has_pending sera db f hmem hpend
  have hempty : (gatherChanges sera db).isEmpty = false := by
    cases hl : gatherChanges sera db with
    | nil => exact absurd hl hgather.2
    | cons a t => rfl
  have hpush : (pushChanges sera now db resp).db =
      markConflicts now resp.conflicts
        (markApplied now (gatherChanges sera db) resp.applied db) := by
    unfold pushChanges
    dsimp only
    rw [hempty]
    rfl
  constructor
  · intro happ hnoc
    have hcontains : (resp.applied.filter (fun id =>
        (gatherChanges sera db).any (fun c => c.ctype = getSyncType "tasks" &&
          c.changeId = id))).contains f.id = true := by
      have hm : f.id ∈ resp.applied.filter (fun id =>
          (gatherChanges sera db).any (fun c => c.ctype = getSyncType "tasks" &&
            c.changeId = id)) :=
        List.mem_filter.mpr ⟨happ, hgather.1⟩
      exact List.elem_eq_true_of_mem hm
    have happlied := markApplied_tableGet now (gatherChanges sera db)
      resp.applied db f.id f hfind
    rw [hcontains, if_pos rfl] at happlied
    have hval : applyMods f
        (updatingHook now { _syncStatus := some SyncStatus.synced }) =
        { f with _syncStatus := SyncStatus.synced } := by
      simp [applyMods, updatingHook]
    rw [hval] at happlied
    rw [hpush]
    rw [markConflicts_tableGet now resp.conflicts _ f.id _ happlied]
    have hany : resp.conflicts.any (fun c => c.id = f.id) = false := by
      rw [List.any_eq_false]
      intro c hc
      simpa using hnoc c hc
    rw [hany]
    rfl
  · intro hconf
    have happlied := markApplied_tableGet now (gatherChanges sera db)
      resp.applied db f.id f hfind
    have hany : resp.conflicts.any (fun c => c.id = f.id) = true := by
      rw [List.any_eq_true]
      obtain ⟨c, hc, hcid⟩ := hconf
      exact ⟨c, hc, by simpa using hcid⟩
    rw [hpush]
    cases hbr : (resp.applied.filter (fun id =>
        (gatherChanges sera db).any (fun c => c.ctype = getSyncType "tasks" &&
          c.changeId = id))).contains f.id with
    | false =>
        rw [hbr] at happlied
        rw [if_neg (by simp)] at happlied
        rw [markConflicts_tableGet now resp.conflicts _ f.id _ happlied, hany]
        rfl
    | true =>
        rw [hbr, if_pos rfl] at happlied
        rw [markConflicts_tableGet now resp.conflicts _ f.id _ happlied, hany]
        simp [applyMods, updatingHook]

/-- C5 witness: the amended behaviour applied to two pending tasks, one
reported applied (becomes synced, untouched otherwise) and one reported
conflicted (becomes conflict with refreshed timestamp). -/
theorem push_response_processing_witness :
    tableGet
        (dbTable
          (pushChanges (fun _ e => e.data) 99
            { tables := [("tasks",
                [{ id := "A", data := "da", _syncStatus := SyncStatus.pending,
                   _localUpdatedAt := 3, deletedAt := none },
                 { id := "B", data := "db", _syncStatus := SyncStatus.pending,
                   _localUpdatedAt := 4, deletedAt := none }])]
              syncMeta := [] }
            { applied := ["A"],
              conflicts := [{ id := "B", serverVersion := "sv",
                              resolution := "server_wins" }],
              syncToken := "t" }).db "tasks") "A" =
      some { id := "A", data := "da", _syncStatus := SyncStatus.synced,
             _localUpdatedAt := 3, deletedAt := none } ∧
    tableGet
        (dbTable
          (pushChanges (fun _ e => e.data) 99
            { tables := [("tasks",
                [{ id := "A", data := "da", _syncStatus := SyncStatus.pending,
                   _localUpdatedAt := 3, deletedAt := none },
                 { id := "B", data := "db", _syncStatus := SyncStatus.pending,
                   _localUpdatedAt := 4, deletedAt := none }])]
              syncMeta := [] }
            { applied := ["A"],
              conflicts := [{ id := "B", serverVersion := "sv",
                              resolution := "server_wins" }],
              syncToken := "t" }).db "tasks") "B" =
      some { id := "B", data := "db", _syncStatus := SyncStatus.conflict,
             _localUpdatedAt := 99, deletedAt := none } := by
  have hA := push_response_processing (fun _ e => e.data) 99
    { tables := [("tasks",
        [{ id := "A", data := "da", _syncStatus := SyncStatus.pending,
           _localUpdatedAt := 3, deletedAt := none },
         { id := "B", data := "db", _syncStatus := SyncStatus.pending,
           _localUpdatedAt := 4, deletedAt := none }])]
      syncMeta := [] }
    { applied := ["A"],
      conflicts := [{ id := "B", serverVersion := "sv",
                      resolution := "server_wins" }],
      syncToken := "t" }
    { id := "A", data := "da", _syncStatus := SyncStatus.pending,
      _localUpdatedAt := 3, deletedAt := none }
    (by decide) rfl
  have hB := push_response_processing (fun _ e => e.data) 99
    { tables := [("tasks",
        [{ id := "A", data := "da", _syncStatus := SyncStatus.pending,
           _localUpdatedAt := 3, deletedAt := none },
         { id := "B", data := "db", _syncStatus := SyncStatus.pending,
           _localUpdatedAt := 4, deletedAt := none }])]
      syncMeta := [] }
    { applied := ["A"],
      conflicts := [{ id := "B", serverVersion := "sv",
                      resolution := "server_wins" }],
      syncToken := "t" }
    { id := "B", data := "db", _syncStatus := SyncStatus.pending,
      _localUpdatedAt := 4, deletedAt := none }
    (by decide) rfl
  refine ⟨hA.1 (by decide) (by decide), hB.2 ?_⟩
  exact ⟨{ id := "B", serverVersion := "sv", resolution := "server_wins" },
    by decide, rfl⟩
